import Mathlib

/-!
Verification of the MNN JNI streaming bridge (NeoDeskPet, mnnllmnative.cpp and
mnnmodulennative.cpp).

The embedding models:
* the process-wide cancellation table (a mutex-guarded std::map from jlong to
  bool) as an association list with map semantics: insert-or-update puts the
  key at the front after erasing old occurrences, erase filters the key out,
  and lookup takes the first match;
* bytes as natural numbers (the C++ code compares chars and unsigned chars
  against concrete byte values);
* the CallbackStream streambuf as a pure state machine: its xsputn and
  flushToCallback become functions on a StreamState record holding the table,
  the chunk buffer, the stop latch, and the list of chunks delivered so far;
* the Java consumer callback as a function from the flush index to the
  boolean it returns (true means continue).  JNI attach/detach and string
  creation are assumed to succeed, so a flush that runs delivers exactly the
  buffer contents;
* asynchronous cancellation as an explicit event interleaved with the
  engine's writes;
* the engine call of nativeGenerateStream as an outcome: a list of events
  followed by a normal return, a thrown std::exception, or an unknown
  exception.  The teardown (clearCancelFlag) of each exit path is counted in
  the state so that "cleared exactly once" is expressible.
-/

/-- Cancellation table: models the global std::map from jlong (here Int) to
bool, gCancelFlags.  Association list; all operations keep map semantics. -/
abbrev CancelTable := List (Int × Bool)

/-- Models setCancelFlag: gCancelFlags at llmPtr is assigned value
(insert-or-update, as std::map operator[] followed by assignment). -/
def setCancelFlag (t : CancelTable) (p : Int) (v : Bool) : CancelTable :=
  (p, v) :: t.filter (fun e => !(e.1 == p))

/-- Models checkCancelFlag: find the entry; the result is
(it != end) && it->second, that is the stored boolean if an entry exists and
false otherwise. -/
def checkCancelFlag (t : CancelTable) (p : Int) : Bool :=
  match List.lookup p t with
  | some b => b
  | none => false

/-- Models clearCancelFlag: gCancelFlags.erase(llmPtr). -/
def clearCancelFlag (t : CancelTable) (p : Int) : CancelTable :=
  t.filter (fun e => !(e.1 == p))

/-- Models Java_com_ai_assistance_mnn_MNNLlmNative_nativeCancel: return
immediately on a zero handle, otherwise setCancelFlag(llmPtr, true). -/
def nativeCancel (t : CancelTable) (p : Int) : CancelTable :=
  if p = 0 then t else setCancelFlag t p true

/-- State of one streaming request: the global cancellation table, the
StreamContext fields (llmPtr, buffer, shouldStop), the chunks delivered to
the consumer callback in order, the number of flushes delivered so far (the
index the consumer function is queried at), and a count of clearCancelFlag
calls performed by the request (for the teardown property). -/
structure StreamState where
  table : CancelTable
  llmPtr : Int
  buffer : List Nat
  shouldStop : Bool
  delivered : List (List Nat)
  flushCount : Nat
  clearCount : Nat
deriving DecidableEq

/-- Models CallbackStream::flushToCallback: return unchanged if the buffer is
empty or the stop latch is set; otherwise deliver the buffer to the consumer
callback, set the latch when the callback returns false, and clear the
buffer.  JNI attach and string creation are assumed to succeed. -/
def flushToCallback (consumer : Nat → Bool) (st : StreamState) : StreamState :=
  if st.buffer = [] ∨ st.shouldStop = true then st
  else
    { st with
      delivered := st.delivered ++ [st.buffer]
      shouldStop := !consumer st.flushCount
      flushCount := st.flushCount + 1
      buffer := [] }

/-- Byte test of the ASCII separator loop in xsputn:
ch == 10 (newline) || ch == 46 (period) || ch == 33 (bang) || ch == 63
(question mark). -/
def isSeparator (c : Nat) : Bool :=
  c == 10 || c == 46 || c == 33 || c == 63

/-- Last three bytes of a byte list (the bytes at bufEnd-3, bufEnd-2,
bufEnd-1 when the list has at least three elements). -/
def lastThree (l : List Nat) : List Nat :=
  l.drop (l.length - 3)

/-- Full-width punctuation test of xsputn: the buffer's last three bytes are
E3 80 82, EF BC 81 or EF BC 9F. -/
def isCJKEnd (l : List Nat) : Bool :=
  lastThree l == [0xE3, 0x80, 0x82] ||
  lastThree l == [0xEF, 0xBC, 0x81] ||
  lastThree l == [0xEF, 0xBC, 0x9F]

/-- Flush decision of xsputn after the append, mirroring the code's control
flow: buf is the post-append buffer, s the newly written bytes.  First the
size threshold of 16, then the ASCII separator scan over s, then (only when
neither matched and the buffer holds at least 3 bytes) the full-width
punctuation suffix test. -/
def shouldFlushAfter (buf s : List Nat) : Bool :=
  if 16 ≤ buf.length then true
  else if s.any isSeparator = true then true
  else if 3 ≤ buf.length then isCJKEnd buf
  else false

/-- Extensional form of the three flush rules as one boolean disjunction
(rule 1: buffer length at least 16; rule 2: the new bytes contain an ASCII
separator; rule 3: buffer of length at least 3 ending in full-width
punctuation). -/
def flushRules (buf s : List Nat) : Bool :=
  decide (16 ≤ buf.length) || s.any isSeparator ||
  (decide (3 ≤ buf.length) && isCJKEnd buf)

/-- Models CallbackStream::xsputn on a write of byte list s (n = s.length):
if the stop latch or the cancellation flag is set or n is not positive,
latch the stop when the flag is set and accept 0 bytes; otherwise append s
to the buffer, make the flush decision, flush at most once, and accept all
n bytes. -/
def xsputn (consumer : Nat → Bool) (st : StreamState) (s : List Nat) :
    Nat × StreamState :=
  if st.shouldStop = true ∨ checkCancelFlag st.table st.llmPtr = true ∨ s = [] then
    (0, if checkCancelFlag st.table st.llmPtr = true
        then { st with shouldStop := true } else st)
  else
    (s.length,
     if shouldFlushAfter (st.buffer ++ s) s = true
     then flushToCallback consumer { st with buffer := st.buffer ++ s }
     else { st with buffer := st.buffer ++ s })

/-- An event during the engine's blocking response call: either the engine
writes bytes to the sink, or some thread calls nativeCancel on a handle. -/
inductive StreamEvent where
  | write (s : List Nat)
  | cancelReq (p : Int)
deriving DecidableEq

/-- One event step: a write goes through the sink's xsputn (the accepted-byte
count is dropped by the engine here); a cancel request mutates the table. -/
def stepEvent (consumer : Nat → Bool) (st : StreamState) (e : StreamEvent) :
    StreamState :=
  match e with
  | .write s => (xsputn consumer st s).2
  | .cancelReq p => { st with table := nativeCancel st.table p }

/-- Outcome of the engine's response call: the events that happened, and
whether the call returned normally, threw a std::exception, or threw an
unknown exception. -/
inductive EngineOutcome where
  | ok (events : List StreamEvent)
  | stdExc (events : List StreamEvent)
  | unkExc (events : List StreamEvent)

/-- Fresh per-request state over a given global table. -/
def initState (t : CancelTable) (p : Int) : StreamState :=
  { table := t, llmPtr := p, buffer := [], shouldStop := false,
    delivered := [], flushCount := 0, clearCount := 0 }

/-- Teardown step of every exit path: clearCancelFlag(llmPtr), counted. -/
def teardown (p : Int) (st : StreamState) : StreamState :=
  { st with table := clearCancelFlag st.table p, clearCount := st.clearCount + 1 }

/-- End-of-generation flush of nativeGenerateStream: after the engine call
returns normally, flushToCallback runs when the buffer is non-empty and the
stop latch is unset. -/
def finalFlush (consumer : Nat → Bool) (st : StreamState) : StreamState :=
  if ¬st.buffer = [] ∧ st.shouldStop = false then flushToCallback consumer st
  else st

/-- Models Java_com_ai_assistance_mnn_MNNLlmNative_nativeGenerateStream for a
request whose JNI setup succeeds: reject a zero handle; otherwise register
the cancellation flag as false, run the engine call (folding the events
through the sink), and on normal return perform the final flush when the
buffer is non-empty and the latch unset, then tear down and return true; on
either exception path skip the final flush, tear down, and return false. -/
def nativeGenerateStream (p : Int) (t0 : CancelTable) (consumer : Nat → Bool)
    (o : EngineOutcome) : Bool × StreamState :=
  if p = 0 then (false, initState t0 p)
  else
    match o with
    | .ok evs =>
      (true, teardown p (finalFlush consumer
        (List.foldl (stepEvent consumer) (initState (setCancelFlag t0 p false) p) evs)))
    | .stdExc evs =>
      (false, teardown p
        (List.foldl (stepEvent consumer) (initState (setCancelFlag t0 p false) p) evs))
    | .unkExc evs =>
      (false, teardown p
        (List.foldl (stepEvent consumer) (initState (setCancelFlag t0 p false) p) evs))

/-- A tensor variable as the setters see it (mnnmodulennative.cpp): whether
writeMap returns a usable pointer, and the stored element list.  Element
values are opaque bit patterns; no arithmetic on them is modelled. -/
structure MNNVar (α : Type) where
  writable : Bool
  data : List α
deriving DecidableEq

/-- Models Java_com_ai_assistance_mnn_MNNModuleNative_nativeSetVarFloatData:
none stands for a zero varPtr handle (returns false); engineThrows stands
for a std::exception from the engine calls inside the try block (caught,
returns false, nothing stored); otherwise the memcpy happens only when
writeMap yields a pointer, and true is returned either way. -/
def nativeSetVarFloatData (varPtr : Option (MNNVar Nat)) (input : List Nat)
    (engineThrows : Bool) : Bool × Option (MNNVar Nat) :=
  match varPtr with
  | none => (false, none)
  | some v =>
    if engineThrows = true then (false, some v)
    else if v.writable = true then (true, some { v with data := input })
    else (true, some v)

/-- Models Java_com_ai_assistance_mnn_MNNModuleNative_nativeSetVarIntData,
structurally identical to the float setter with int elements. -/
def nativeSetVarIntData (varPtr : Option (MNNVar Int)) (input : List Int)
    (engineThrows : Bool) : Bool × Option (MNNVar Int) :=
  match varPtr with
  | none => (false, none)
  | some v =>
    if engineThrows = true then (false, some v)
    else if v.writable = true then (true, some { v with data := input })
    else (true, some v)

/-! Helper lemmas about the cancellation table. -/

/-- Erasing a key from the table makes its lookup fail. -/
theorem lookup_eraseKey (t : CancelTable) (p : Int) :
    List.lookup p (t.filter (fun e => !(e.1 == p))) = none := by
  induction t with
  | nil => rfl
  | cons e rest ih =>
    by_cases h : e.1 = p
    · have hb : (!(e.1 == p)) = false := by simp [h]
      rw [List.filter_cons, hb]
      simpa using ih
    · have hb : (!(e.1 == p)) = true := by simp [h]
      have h2 : (p == e.1) = false := by simp [Ne.symm h]
      rw [List.filter_cons, hb]
      simp only [if_true]
      rw [List.lookup, h2]
      simpa using ih

/-- Erasing an absent key leaves the table unchanged. -/
theorem eraseKey_of_lookup_none (t : CancelTable) (p : Int)
    (h : List.lookup p t = none) :
    t.filter (fun e => !(e.1 == p)) = t := by
  induction t with
  | nil => rfl
  | cons e rest ih =>
    rw [List.lookup] at h
    by_cases hk : p = e.1
    · have h2 : (p == e.1) = true := by simp [hk]
      rw [h2] at h
      exact absurd h (by simp)
    · have h2 : (p == e.1) = false := by simp [hk]
      rw [h2] at h
      have hb : (!(e.1 == p)) = true := by simp [Ne.symm hk]
      rw [List.filter_cons, hb]
      simp only [if_true]
      rw [ih h]

/-- Setting a flag makes checkCancelFlag return exactly the stored value. -/
theorem check_setCancelFlag_self (t : CancelTable) (p : Int) (v : Bool) :
    checkCancelFlag (setCancelFlag t p v) p = v := by
  simp [checkCancelFlag, setCancelFlag, List.lookup]

/-- Two consecutive flag writes for the same handle collapse to the last. -/
theorem setCancelFlag_setCancelFlag (t : CancelTable) (p : Int) (v w : Bool) :
    setCancelFlag (setCancelFlag t p v) p w = setCancelFlag t p w := by
  simp [setCancelFlag, List.filter_filter]

/-! Helper lemmas about the streaming relay. -/

/-- Unfolding of a flush that actually delivers. -/
theorem flushToCallback_run (consumer : Nat → Bool) (st : StreamState)
    (hb : ¬st.buffer = []) (hs : st.shouldStop = false) :
    flushToCallback consumer st =
      { st with
        delivered := st.delivered ++ [st.buffer]
        shouldStop := !consumer st.flushCount
        flushCount := st.flushCount + 1
        buffer := [] } := by
  rw [flushToCallback, if_neg (by simp [hb, hs])]

/-- A write step under an always-continue consumer, with neither the latch
nor the flag set, preserves the concatenation invariant and the running
conditions. -/
theorem xsputn_ok (consumer : Nat → Bool) (hc : ∀ k, consumer k = true)
    (st : StreamState) (s : List Nat)
    (h1 : st.shouldStop = false)
    (h2 : checkCancelFlag st.table st.llmPtr = false) :
    (xsputn consumer st s).2.delivered.flatten ++ (xsputn consumer st s).2.buffer
      = st.delivered.flatten ++ st.buffer ++ s ∧
    (xsputn consumer st s).2.shouldStop = false ∧
    (xsputn consumer st s).2.table = st.table ∧
    (xsputn consumer st s).2.llmPtr = st.llmPtr := by
  by_cases hs : s = []
  · subst hs
    rw [xsputn, if_pos (by simp)]
    simp [h1, h2]
  · rw [xsputn, if_neg (by simp [h1, h2, hs])]
    by_cases hf : shouldFlushAfter (st.buffer ++ s) s = true
    · rw [if_pos hf,
        flushToCallback_run consumer { st with buffer := st.buffer ++ s }
          (by simp [hs]) (by simp [h1])]
      simp [hc, List.append_assoc]
    · rw [if_neg hf]
      simp [h1, List.append_assoc]

/-- Folding a list of pure write events under an always-continue consumer
keeps the concatenation invariant. -/
theorem foldWrites_ok (consumer : Nat → Bool) (hc : ∀ k, consumer k = true)
    (ws : List (List Nat)) :
    ∀ st : StreamState, st.shouldStop = false →
      checkCancelFlag st.table st.llmPtr = false →
      (List.foldl (stepEvent consumer) st (ws.map StreamEvent.write)).delivered.flatten
          ++ (List.foldl (stepEvent consumer) st (ws.map StreamEvent.write)).buffer
        = st.delivered.flatten ++ st.buffer ++ ws.flatten ∧
      (List.foldl (stepEvent consumer) st (ws.map StreamEvent.write)).shouldStop = false ∧
      (List.foldl (stepEvent consumer) st (ws.map StreamEvent.write)).table = st.table ∧
      (List.foldl (stepEvent consumer) st (ws.map StreamEvent.write)).llmPtr = st.llmPtr := by
  induction ws with
  | nil => intro st h1 h2; simp [h1]
  | cons w ws ih =>
    intro st h1 h2
    obtain ⟨e1, e2, e3, e4⟩ := xsputn_ok consumer hc st w h1 h2
    have h2' : checkCancelFlag (xsputn consumer st w).2.table
        (xsputn consumer st w).2.llmPtr = false := by rw [e3, e4]; exact h2
    obtain ⟨f1, f2, f3, f4⟩ := ih (xsputn consumer st w).2 e2 h2'
    have hstep : List.foldl (stepEvent consumer) st ((w :: ws).map StreamEvent.write)
        = List.foldl (stepEvent consumer) (xsputn consumer st w).2
            (ws.map StreamEvent.write) := by
      simp [stepEvent]
    rw [hstep]
    refine ⟨?_, f2, by rw [f3, e3], by rw [f4, e4]⟩
    rw [f1, e1]
    simp [List.append_assoc]

/-- C1: for every request of nativeGenerateStream that runs to completion
without cancellation (only write events) and without the stop latch being
set (the consumer always answers continue), the concatenation of all chunks
delivered to the consumer callback in delivery order, including the final
end-of-generation flush, equals the full text the engine wrote to the sink. -/
theorem stream_concat_complete (p : Int) (t0 : CancelTable)
    (consumer : Nat → Bool) (ws : List (List Nat))
    (hp : p ≠ 0) (hc : ∀ k, consumer k = true) :
    ((nativeGenerateStream p t0 consumer
        (.ok (ws.map StreamEvent.write))).2).delivered.flatten = ws.flatten := by
  rw [nativeGenerateStream, if_neg hp]
  have hinit : (initState (setCancelFlag t0 p false) p).shouldStop = false := rfl
  have hflag : checkCancelFlag (initState (setCancelFlag t0 p false) p).table
      (initState (setCancelFlag t0 p false) p).llmPtr = false :=
    check_setCancelFlag_self t0 p false
  obtain ⟨f1, f2, _, _⟩ := foldWrites_ok consumer hc ws
    (initState (setCancelFlag t0 p false) p) hinit hflag
  show (teardown p (finalFlush consumer _)).delivered.flatten = _
  rw [teardown]
  set st1 := List.foldl (stepEvent consumer)
    (initState (setCancelFlag t0 p false) p) (ws.map StreamEvent.write) with hst1
  simp only [initState, List.flatten_nil, List.nil_append] at f1
  by_cases hb : st1.buffer = []
  · rw [finalFlush, if_neg (by simp [hb])]
    rw [hb] at f1
    simpa using f1
  · rw [finalFlush, if_pos ⟨hb, f2⟩, flushToCallback_run consumer st1 hb f2]
    simp only [List.flatten_append, List.flatten_cons, List.flatten_nil,
      List.append_nil]
    exact f1

/-- The code's ordered first-match flush decision equals the plain
disjunction of the three rules. -/
theorem shouldFlushAfter_eq_flushRules (buf s : List Nat) :
    shouldFlushAfter buf s = flushRules buf s := by
  rw [shouldFlushAfter, flushRules]
  by_cases h16 : 16 ≤ buf.length
  · simp [h16]
  · by_cases hsep : s.any isSeparator = true
    · simp [h16, hsep]
    · by_cases h3 : 3 ≤ buf.length <;>
        simp [h16, hsep, h3, Bool.eq_false_iff.mpr]

/-- What one accepted write step delivers: the post-append buffer, exactly
when the disjunction of the three flush rules holds. -/
theorem xsputn_delivered_eq (consumer : Nat → Bool) (st : StreamState)
    (s : List Nat)
    (h1 : st.shouldStop = false)
    (h2 : checkCancelFlag st.table st.llmPtr = false)
    (h3 : ¬s = []) :
    (xsputn consumer st s).2.delivered = st.delivered ++
      (if flushRules (st.buffer ++ s) s = true then [st.buffer ++ s] else []) := by
  rw [xsputn, if_neg (by simp [h1, h2, h3]), shouldFlushAfter_eq_flushRules]
  by_cases hf : flushRules (st.buffer ++ s) s = true
  · rw [if_pos hf, if_pos hf,
      flushToCallback_run consumer { st with buffer := st.buffer ++ s }
        (by simp [h3]) (by simp [h1])]
  · rw [if_neg hf, if_neg hf]
    simp

/-- C3: after each append of newly written bytes (stop latch and
cancellation flag both unset, at least one byte written), a delivery to the
consumer occurs if and only if one of the three rules matches, the delivered
chunk being the whole post-append buffer; and at most one flush happens per
append even when several rules match at once. -/
theorem flush_decision_rules (consumer : Nat → Bool) (st : StreamState)
    (s : List Nat)
    (h1 : st.shouldStop = false)
    (h2 : checkCancelFlag st.table st.llmPtr = false)
    (h3 : ¬s = []) :
    (xsputn consumer st s).2.delivered = st.delivered ++
      (if flushRules (st.buffer ++ s) s = true then [st.buffer ++ s] else []) ∧
    (xsputn consumer st s).2.delivered.length ≤ st.delivered.length + 1 := by
  have key := xsputn_delivered_eq consumer st s h1 h2 h3
  refine ⟨key, ?_⟩
  rw [key]
  by_cases hf : flushRules (st.buffer ++ s) s = true <;> simp [hf]

/-- C8: when neither the length-16 rule nor the ASCII rule fires and the
post-append buffer holds at least three bytes, a flush is triggered exactly
when the buffer's last three bytes are one of the UTF-8 sequences E3 80 82,
EF BC 81, EF BC 9F; no other three-byte suffix triggers the rule. -/
theorem cjk_suffix_rule (consumer : Nat → Bool) (st : StreamState)
    (s : List Nat)
    (h1 : st.shouldStop = false)
    (h2 : checkCancelFlag st.table st.llmPtr = false)
    (h3 : ¬s = [])
    (h4 : (st.buffer ++ s).length < 16)
    (h5 : s.any isSeparator = false)
    (h6 : 3 ≤ (st.buffer ++ s).length) :
    (xsputn consumer st s).2.delivered.length = st.delivered.length + 1 ↔
      (lastThree (st.buffer ++ s) = [0xE3, 0x80, 0x82] ∨
       lastThree (st.buffer ++ s) = [0xEF, 0xBC, 0x81] ∨
       lastThree (st.buffer ++ s) = [0xEF, 0xBC, 0x9F]) := by
  have key := xsputn_delivered_eq consumer st s h1 h2 h3
  have hr : flushRules (st.buffer ++ s) s = isCJKEnd (st.buffer ++ s) := by
    rw [flushRules, decide_eq_false (Nat.not_le.mpr h4), decide_eq_true h6, h5]
    simp
  rw [key, hr]
  by_cases hcjk : isCJKEnd (st.buffer ++ s) = true
  · have hdis : lastThree (st.buffer ++ s) = [0xE3, 0x80, 0x82] ∨
        lastThree (st.buffer ++ s) = [0xEF, 0xBC, 0x81] ∨
        lastThree (st.buffer ++ s) = [0xEF, 0xBC, 0x9F] := by
      rw [isCJKEnd] at hcjk
      simp at hcjk
      tauto
    simp [hcjk, hdis]
  · have hdis : ¬(lastThree (st.buffer ++ s) = [0xE3, 0x80, 0x82] ∨
        lastThree (st.buffer ++ s) = [0xEF, 0xBC, 0x81] ∨
        lastThree (st.buffer ++ s) = [0xEF, 0xBC, 0x9F]) := by
      rw [isCJKEnd] at hcjk
      simp at hcjk
      tauto
    simp [hcjk, hdis]

/-- Flush preserves the stopping invariant for a consumer that answers
false at index j: the flush counter tracks the delivered count, never passes
j+1, and reaching j+1 latches the stop. -/
theorem flushToCallback_stopInv (consumer : Nat → Bool) (j : Nat)
    (hj : consumer j = false) (st : StreamState)
    (h : st.flushCount = st.delivered.length ∧ st.flushCount ≤ j + 1 ∧
         (st.flushCount = j + 1 → st.shouldStop = true)) :
    (flushToCallback consumer st).flushCount
        = (flushToCallback consumer st).delivered.length ∧
    (flushToCallback consumer st).flushCount ≤ j + 1 ∧
    ((flushToCallback consumer st).flushCount = j + 1 →
      (flushToCallback consumer st).shouldStop = true) := by
  obtain ⟨h1, h2, h3⟩ := h
  rw [flushToCallback]
  by_cases hg : st.buffer = [] ∨ st.shouldStop = true
  · rw [if_pos hg]
    exact ⟨h1, h2, h3⟩
  · rw [if_neg hg]
    have hss : st.shouldStop = false := by
      cases ht : st.shouldStop
      · rfl
      · exact absurd (Or.inr ht) hg
    have hne : st.flushCount ≠ j + 1 := by
      intro hEq
      rw [h3 hEq] at hss
      exact absurd hss (by decide)
    refine ⟨?_, ?_, ?_⟩
    · show st.flushCount + 1 = (st.delivered ++ [st.buffer]).length
      simp [h1]
    · show st.flushCount + 1 ≤ j + 1
      omega
    · intro hq
      have hq' : st.flushCount + 1 = j + 1 := hq
      have hcj : st.flushCount = j := by omega
      show (!consumer st.flushCount) = true
      rw [hcj, hj]
      rfl

/-- One write step preserves the stopping invariant. -/
theorem xsputn_stopInv (consumer : Nat → Bool) (j : Nat)
    (hj : consumer j = false) (st : StreamState) (s : List Nat)
    (h : st.flushCount = st.delivered.length ∧ st.flushCount ≤ j + 1 ∧
         (st.flushCount = j + 1 → st.shouldStop = true)) :
    (xsputn consumer st s).2.flushCount
        = (xsputn consumer st s).2.delivered.length ∧
    (xsputn consumer st s).2.flushCount ≤ j + 1 ∧
    ((xsputn consumer st s).2.flushCount = j + 1 →
      (xsputn consumer st s).2.shouldStop = true) := by
  obtain ⟨h1, h2, h3⟩ := h
  rw [xsputn]
  by_cases hg : st.shouldStop = true ∨
      checkCancelFlag st.table st.llmPtr = true ∨ s = []
  · rw [if_pos hg]
    by_cases hcf : checkCancelFlag st.table st.llmPtr = true
    · rw [if_pos hcf]
      exact ⟨h1, h2, fun _ => rfl⟩
    · rw [if_neg hcf]
      exact ⟨h1, h2, h3⟩
  · rw [if_neg hg]
    by_cases hf : shouldFlushAfter (st.buffer ++ s) s = true
    · rw [if_pos hf]
      exact flushToCallback_stopInv consumer j hj
        { st with buffer := st.buffer ++ s } ⟨h1, h2, h3⟩
    · rw [if_neg hf]
      exact ⟨h1, h2, h3⟩

/-- Any event fold preserves the stopping invariant. -/
theorem fold_stopInv (consumer : Nat → Bool) (j : Nat)
    (hj : consumer j = false) (evs : List StreamEvent) :
    ∀ st : StreamState,
      st.flushCount = st.delivered.length ∧ st.flushCount ≤ j + 1 ∧
        (st.flushCount = j + 1 → st.shouldStop = true) →
      (List.foldl (stepEvent consumer) st evs).flushCount
          = (List.foldl (stepEvent consumer) st evs).delivered.length ∧
      (List.foldl (stepEvent consumer) st evs).flushCount ≤ j + 1 ∧
      ((List.foldl (stepEvent consumer) st evs).flushCount = j + 1 →
        (List.foldl (stepEvent consumer) st evs).shouldStop = true) := by
  induction evs with
  | nil => intro st h; simpa using h
  | cons e evs ih =>
    intro st h
    rw [List.foldl_cons]
    apply ih
    cases e with
    | write s => exact xsputn_stopInv consumer j hj st s h
    | cancelReq q => exact h

/-- C4: if the consumer callback returns false at flush index j (the
(j+1)-th flush), then no later flush is ever delivered for that request: the
total number of delivered chunks is at most j+1, and if the (j+1)-th flush
happened the stop latch is set in the final state, so every later sink write
was rejected and the end-of-generation flush skipped. -/
theorem callback_false_stops_stream (p : Int) (t0 : CancelTable)
    (consumer : Nat → Bool) (evs : List StreamEvent) (j : Nat)
    (hp : p ≠ 0) (hj : consumer j = false) :
    ((nativeGenerateStream p t0 consumer (.ok evs)).2).delivered.length ≤ j + 1 ∧
    (((nativeGenerateStream p t0 consumer (.ok evs)).2).delivered.length = j + 1 →
      ((nativeGenerateStream p t0 consumer (.ok evs)).2).shouldStop = true) := by
  rw [nativeGenerateStream, if_neg hp]
  have hinit : (initState (setCancelFlag t0 p false) p).flushCount
      = (initState (setCancelFlag t0 p false) p).delivered.length ∧
      (initState (setCancelFlag t0 p false) p).flushCount ≤ j + 1 ∧
      ((initState (setCancelFlag t0 p false) p).flushCount = j + 1 →
        (initState (setCancelFlag t0 p false) p).shouldStop = true) := by
    refine ⟨rfl, by simp [initState], ?_⟩
    intro hq
    simp [initState] at hq
  have hfold := fold_stopInv consumer j hj evs
    (initState (setCancelFlag t0 p false) p) hinit
  set st1 := List.foldl (stepEvent consumer)
    (initState (setCancelFlag t0 p false) p) evs with hst1
  have hfin : (finalFlush consumer st1).flushCount
      = (finalFlush consumer st1).delivered.length ∧
      (finalFlush consumer st1).flushCount ≤ j + 1 ∧
      ((finalFlush consumer st1).flushCount = j + 1 →
        (finalFlush consumer st1).shouldStop = true) := by
    rw [finalFlush]
    by_cases hg : ¬st1.buffer = [] ∧ st1.shouldStop = false
    · rw [if_pos hg]
      exact flushToCallback_stopInv consumer j hj st1 hfold
    · rw [if_neg hg]
      exact hfold
  obtain ⟨g1, g2, g3⟩ := hfin
  show (teardown p (finalFlush consumer st1)).delivered.length ≤ j + 1 ∧ _
  rw [teardown]
  constructor
  · simp only
    omega
  · intro hq
    simp only at hq ⊢
    exact g3 (by omega)

/-- A write against a stopped context is rejected: zero bytes accepted,
buffer, delivered chunks and the latch unchanged. -/
theorem xsputn_stopped (consumer : Nat → Bool) (st : StreamState)
    (s : List Nat) (h : st.shouldStop = true) :
    (xsputn consumer st s).1 = 0 ∧
    (xsputn consumer st s).2.buffer = st.buffer ∧
    (xsputn consumer st s).2.delivered = st.delivered ∧
    (xsputn consumer st s).2.shouldStop = true := by
  rw [xsputn, if_pos (Or.inl h)]
  by_cases hcf : checkCancelFlag st.table st.llmPtr = true
  · rw [if_pos hcf]
    exact ⟨rfl, rfl, rfl, rfl⟩
  · rw [if_neg hcf]
    exact ⟨rfl, rfl, rfl, h⟩

/-- Once the latch is set, any sequence of further events leaves the buffer
and the delivered chunks unchanged and the latch set. -/
theorem fold_stopped (consumer : Nat → Bool) (evs : List StreamEvent) :
    ∀ st : StreamState, st.shouldStop = true →
      (List.foldl (stepEvent consumer) st evs).buffer = st.buffer ∧
      (List.foldl (stepEvent consumer) st evs).delivered = st.delivered ∧
      (List.foldl (stepEvent consumer) st evs).shouldStop = true := by
  induction evs with
  | nil => intro st h; exact ⟨rfl, rfl, h⟩
  | cons e evs ih =>
    intro st h
    rw [List.foldl_cons]
    cases e with
    | write s =>
      simp only [stepEvent]
      obtain ⟨_, e2, e3, e4⟩ := xsputn_stopped consumer st s h
      obtain ⟨f1, f2, f3⟩ := ih ((xsputn consumer st s).2) e4
      exact ⟨by rw [f1, e2], by rw [f2, e3], f3⟩
    | cancelReq q =>
      simp only [stepEvent]
      obtain ⟨f1, f2, f3⟩ := ih { st with table := nativeCancel st.table q } h
      exact ⟨f1, f2, f3⟩

/-- C6: a sink write that observes the cancellation flag set for the
request's handle is silently dropped (zero bytes accepted, nothing appended,
nothing delivered) and latches the stop, after which writes from any stopped
state are also rejected with zero bytes and any further event sequence
appends and delivers nothing. -/
theorem cancelled_writes_dropped (consumer : Nat → Bool) (st : StreamState)
    (s : List Nat) (h : checkCancelFlag st.table st.llmPtr = true) :
    (xsputn consumer st s).1 = 0 ∧
    (xsputn consumer st s).2.buffer = st.buffer ∧
    (xsputn consumer st s).2.delivered = st.delivered ∧
    (xsputn consumer st s).2.shouldStop = true ∧
    (∀ (st2 : StreamState) (s2 : List Nat), st2.shouldStop = true →
      (xsputn consumer st2 s2).1 = 0) ∧
    ∀ rest : List StreamEvent,
      (List.foldl (stepEvent consumer) (xsputn consumer st s).2 rest).buffer
        = st.buffer ∧
      (List.foldl (stepEvent consumer) (xsputn consumer st s).2 rest).delivered
        = st.delivered := by
  have hx : (xsputn consumer st s) = (0, { st with shouldStop := true }) := by
    rw [xsputn, if_pos (Or.inr (Or.inl h)), if_pos h]
  refine ⟨by rw [hx], by rw [hx], by rw [hx], by rw [hx], ?_, ?_⟩
  · intro st2 s2 h2
    exact (xsputn_stopped consumer st2 s2 h2).1
  · intro rest
    rw [hx]
    obtain ⟨f1, f2, _⟩ := fold_stopped consumer rest
      { st with shouldStop := true } rfl
    exact ⟨f1, f2⟩

/-- The flush never touches the clear counter. -/
theorem flushToCallback_clearCount (consumer : Nat → Bool) (st : StreamState) :
    (flushToCallback consumer st).clearCount = st.clearCount := by
  rw [flushToCallback]
  split <;> rfl

/-- A write step never touches the clear counter. -/
theorem xsputn_clearCount (consumer : Nat → Bool) (st : StreamState)
    (s : List Nat) :
    (xsputn consumer st s).2.clearCount = st.clearCount := by
  rw [xsputn]
  split
  · split <;> rfl
  · split
    · exact flushToCallback_clearCount consumer _
    · rfl

/-- No event during the engine call touches the clear counter. -/
theorem fold_clearCount (consumer : Nat → Bool) (evs : List StreamEvent) :
    ∀ st : StreamState,
      (List.foldl (stepEvent consumer) st evs).clearCount = st.clearCount := by
  induction evs with
  | nil => intro st; rfl
  | cons e evs ih =>
    intro st
    rw [List.foldl_cons]
    cases e with
    | write s =>
      rw [ih]
      simp only [stepEvent]
      rw [xsputn_clearCount]
    | cancelReq q =>
      rw [ih]
      rfl

/-- C5: for every nativeGenerateStream invocation with a non-zero handle,
the cancellation flag entry for that handle is cleared exactly once before
the function returns, on the success path, the std::exception path and the
unknown-exception path alike: the final state records exactly one
clearCancelFlag call and the table holds no entry for the handle. -/
theorem teardown_clears_flag_once (p : Int) (t0 : CancelTable)
    (consumer : Nat → Bool) (o : EngineOutcome) (hp : p ≠ 0) :
    ((nativeGenerateStream p t0 consumer o).2).clearCount = 1 ∧
    List.lookup p ((nativeGenerateStream p t0 consumer o).2).table = none := by
  cases o with
  | ok evs =>
    rw [nativeGenerateStream, if_neg hp]
    constructor
    · show (teardown p _).clearCount = 1
      rw [teardown]
      show (finalFlush consumer _).clearCount + 1 = 1
      rw [finalFlush]
      split
      · rw [flushToCallback_clearCount, fold_clearCount]
        rfl
      · rw [fold_clearCount]
        rfl
    · exact lookup_eraseKey _ p
  | stdExc evs =>
    rw [nativeGenerateStream, if_neg hp]
    constructor
    · show (teardown p _).clearCount = 1
      rw [teardown]
      show (List.foldl (stepEvent consumer) _ evs).clearCount + 1 = 1
      rw [fold_clearCount]
      rfl
    · exact lookup_eraseKey _ p
  | unkExc evs =>
    rw [nativeGenerateStream, if_neg hp]
    constructor
    · show (teardown p _).clearCount = 1
      rw [teardown]
      show (List.foldl (stepEvent consumer) _ evs).clearCount + 1 = 1
      rw [fold_clearCount]
      rfl
    · exact lookup_eraseKey _ p

/-- C9: at the start of every nativeGenerateStream request with a non-zero
handle (JNI setup succeeding), the cancellation flag for the handle is
overwritten to false regardless of the table's prior contents, so a cancel
issued before the request registers its flag is discarded: the whole request
behaves exactly as if the stale cancel had never been recorded. -/
theorem register_overwrites_stale_cancel (p : Int) (t : CancelTable)
    (consumer : Nat → Bool) (o : EngineOutcome) (hp : p ≠ 0) :
    checkCancelFlag (setCancelFlag t p false) p = false ∧
    nativeGenerateStream p (setCancelFlag t p true) consumer o
      = nativeGenerateStream p t consumer o := by
  refine ⟨check_setCancelFlag_self t p false, ?_⟩
  cases o <;>
    rw [nativeGenerateStream, nativeGenerateStream, if_neg hp, if_neg hp,
      setCancelFlag_setCancelFlag]

/-- C10: the tensor-data setters return true for every non-zero variable
handle that does not throw, even when the variable's write pointer is null
and nothing is copied (the variable is returned unchanged); false is
returned exactly for a zero handle or a thrown exception. -/
theorem setvar_true_without_copy (v : MNNVar Nat) (w : MNNVar Int)
    (inF : List Nat) (inI : List Int)
    (hv : v.writable = false) (hw : w.writable = false) :
    nativeSetVarFloatData (some v) inF false = (true, some v) ∧
    nativeSetVarIntData (some w) inI false = (true, some w) ∧
    (∀ (vp : Option (MNNVar Nat)) (input : List Nat) (thr : Bool),
      (nativeSetVarFloatData vp input thr).1 = false ↔ (vp = none ∨ thr = true)) ∧
    (∀ (vp : Option (MNNVar Int)) (input : List Int) (thr : Bool),
      (nativeSetVarIntData vp input thr).1 = false ↔ (vp = none ∨ thr = true)) := by
  refine ⟨?_, ?_, ?_, ?_⟩
  · rw [nativeSetVarFloatData]
    simp [hv]
  · rw [nativeSetVarIntData]
    simp [hw]
  · intro vp input thr
    cases vp with
    | none => simp [nativeSetVarFloatData]
    | some u =>
      cases thr with
      | false =>
        rw [nativeSetVarFloatData]
        by_cases hu : u.writable = true <;> simp [hu]
      | true => simp [nativeSetVarFloatData]
  · intro vp input thr
    cases vp with
    | none => simp [nativeSetVarIntData]
    | some u =>
      cases thr with
      | false =>
        rw [nativeSetVarIntData]
        by_cases hu : u.writable = true <;> simp [hu]
      | true => simp [nativeSetVarIntData]

/-- Concrete instance of the C1 theorem: two engine writes, always-continue
consumer, handle 1, empty prior table. -/
theorem stream_concat_complete_w :
    ((nativeGenerateStream 1 [] (fun _ => true)
        (.ok ([[72, 105, 46], [32, 116]].map StreamEvent.write))).2).delivered.flatten
      = [[72, 105, 46], [32, 116]].flatten :=
  stream_concat_complete 1 [] (fun _ => true) [[72, 105, 46], [32, 116]]
    (by decide) (fun _ => rfl)

/-- Concrete instance of the C3 theorem: 16 consecutive letters with no
punctuation trigger exactly one flush of those 16 bytes. -/
theorem flush_decision_rules_w :
    (xsputn (fun _ => true) (initState [] 1) (List.replicate 16 97)).2.delivered
      = (initState [] 1).delivered ++
        (if flushRules ((initState [] 1).buffer ++ List.replicate 16 97)
            (List.replicate 16 97) = true
         then [(initState [] 1).buffer ++ List.replicate 16 97] else []) ∧
    (xsputn (fun _ => true) (initState [] 1)
        (List.replicate 16 97)).2.delivered.length
      ≤ (initState [] 1).delivered.length + 1 :=
  flush_decision_rules (fun _ => true) (initState [] 1) (List.replicate 16 97)
    rfl rfl (by decide)

/-- Concrete instance of the C4 theorem: the consumer refuses the first
flush, so at most one chunk is delivered and the latch ends set. -/
theorem callback_false_stops_stream_w :
    ((nativeGenerateStream 1 [] (fun _ => false)
        (.ok [StreamEvent.write [46]])).2).delivered.length ≤ 0 + 1 ∧
    (((nativeGenerateStream 1 [] (fun _ => false)
        (.ok [StreamEvent.write [46]])).2).delivered.length = 0 + 1 →
      ((nativeGenerateStream 1 [] (fun _ => false)
          (.ok [StreamEvent.write [46]])).2).shouldStop = true) :=
  callback_false_stops_stream 1 [] (fun _ => false) [StreamEvent.write [46]] 0
    (by decide) rfl

/-- Concrete instance of the C5 theorem on the success path with no events. -/
theorem teardown_clears_flag_once_w :
    ((nativeGenerateStream 1 [] (fun _ => true) (.ok [])).2).clearCount = 1 ∧
    List.lookup 1 ((nativeGenerateStream 1 [] (fun _ => true)
        (.ok [])).2).table = none :=
  teardown_clears_flag_once 1 [] (fun _ => true) (.ok []) (by decide)

/-- Concrete instance of the C6 theorem: with the flag set for handle 1, a
write of one byte is rejected and a later write delivers nothing either. -/
theorem cancelled_writes_dropped_w :
    (xsputn (fun _ => true) (initState [((1:Int), true)] 1) [97]).1 = 0 ∧
    (xsputn (fun _ => true) (initState [((1:Int), true)] 1) [97]).2.delivered
      = (initState [((1:Int), true)] 1).delivered ∧
    (List.foldl (stepEvent (fun _ => true))
        (xsputn (fun _ => true) (initState [((1:Int), true)] 1) [97]).2
        [StreamEvent.write [98]]).delivered
      = (initState [((1:Int), true)] 1).delivered := by
  have h := cancelled_writes_dropped (fun _ => true)
    (initState [((1:Int), true)] 1) [97] (by decide)
  exact ⟨h.1, h.2.2.1, (h.2.2.2.2.2 [StreamEvent.write [98]]).2⟩

/-- Concrete instance of the C8 theorem: a three-byte write that is exactly
a full-width period flushes. -/
theorem cjk_suffix_rule_w :
    ((xsputn (fun _ => true) (initState [] 1)
        [0xE3, 0x80, 0x82]).2.delivered.length
      = (initState [] 1).delivered.length + 1) ↔
      (lastThree ((initState [] 1).buffer ++ [0xE3, 0x80, 0x82])
          = [0xE3, 0x80, 0x82] ∨
       lastThree ((initState [] 1).buffer ++ [0xE3, 0x80, 0x82])
          = [0xEF, 0xBC, 0x81] ∨
       lastThree ((initState [] 1).buffer ++ [0xE3, 0x80, 0x82])
          = [0xEF, 0xBC, 0x9F]) :=
  cjk_suffix_rule (fun _ => true) (initState [] 1) [0xE3, 0x80, 0x82]
    rfl rfl (by decide) (by decide) (by decide) (by decide)

/-- Concrete instance of the C9 theorem: a stale cancel recorded for handle
1 before the request starts does not change the request's behavior. -/
theorem register_overwrites_stale_cancel_w :
    checkCancelFlag (setCancelFlag [] 1 false) 1 = false ∧
    nativeGenerateStream 1 (setCancelFlag [] 1 true) (fun _ => true)
        (.ok [StreamEvent.write [97]])
      = nativeGenerateStream 1 [] (fun _ => true)
        (.ok [StreamEvent.write [97]]) :=
  register_overwrites_stale_cancel 1 [] (fun _ => true)
    (.ok [StreamEvent.write [97]]) (by decide)

/-- Concrete instance of the C10 theorem: non-writable variables keep their
data yet the setters return true; a zero handle and a throwing engine call
return false. -/
theorem setvar_true_without_copy_w :
    nativeSetVarFloatData (some ⟨false, [7]⟩) [1, 2] false
      = (true, some ⟨false, [7]⟩) ∧
    nativeSetVarIntData (some ⟨false, [(3:Int)]⟩) [4] false
      = (true, some ⟨false, [(3:Int)]⟩) ∧
    (nativeSetVarFloatData none [] false).1 = false ∧
    (nativeSetVarIntData (some ⟨true, []⟩) [5] true).1 = false := by
  have h := setvar_true_without_copy ⟨false, [7]⟩ ⟨false, [(3:Int)]⟩ [1, 2] [4]
    rfl rfl
  exact ⟨h.1, h.2.1, (h.2.2.1 none [] false).mpr (Or.inl rfl),
    (h.2.2.2 (some ⟨true, []⟩) [5] true).mpr (Or.inr rfl)⟩

/-- C7: checkFlag returns the stored boolean when an entry exists for the
handle and false when none exists; checkFlag after clearFlag returns false
for every prior table state; and clearFlag of a non-existent entry is a
no-op. -/
theorem checkFlag_clearFlag_semantics (t : CancelTable) (p : Int) :
    (∀ b : Bool, List.lookup p t = some b → checkCancelFlag t p = b) ∧
    (List.lookup p t = none → checkCancelFlag t p = false) ∧
    checkCancelFlag (clearCancelFlag t p) p = false ∧
    (List.lookup p t = none → clearCancelFlag t p = t) := by
  refine ⟨?_, ?_, ?_, ?_⟩
  · intro b hb
    simp [checkCancelFlag, hb]
  · intro hn
    simp [checkCancelFlag, hn]
  · simp [checkCancelFlag, clearCancelFlag, lookup_eraseKey]
  · intro hn
    exact eraseKey_of_lookup_none t p hn

/-- Concrete instance of the C7 theorem: a stored true is read back, a
clear makes the read false, and clearing an absent key changes nothing. -/
theorem checkFlag_clearFlag_semantics_w :
    checkCancelFlag [((1:Int), true)] 1 = true ∧
    checkCancelFlag (clearCancelFlag [((1:Int), true)] 1) 1 = false ∧
    clearCancelFlag ([((2:Int), true)] : CancelTable) 1 = [((2:Int), true)] := by
  refine ⟨?_, ?_, ?_⟩
  · exact (checkFlag_clearFlag_semantics [((1:Int), true)] 1).1 true (by decide)
  · exact (checkFlag_clearFlag_semantics [((1:Int), true)] 1).2.2.1
  · exact (checkFlag_clearFlag_semantics [((2:Int), true)] 1).2.2.2 (by decide)

/-- Counterexample to C2 as stated: cancelling handle 1 on an empty table
does not leave the table unchanged (the code inserts an entry with value
true via map indexing inside setCancelFlag). -/
theorem cancel_noentry_counterexample :
    nativeCancel ([] : CancelTable) 1 ≠ ([] : CancelTable) := by decide

/-- C2 amended: calling nativeCancel for a non-zero handle with no active
flag entry raises no error but is not a no-op on the table: it inserts the
entry (handle, true), after which checkFlag reports true for the handle. -/
theorem cancel_without_entry_inserts (t : CancelTable) (p : Int)
    (hp : p ≠ 0) (h : List.lookup p t = none) :
    nativeCancel t p = (p, true) :: t ∧
    checkCancelFlag (nativeCancel t p) p = true := by
  have he : nativeCancel t p = (p, true) :: t := by
    rw [nativeCancel, if_neg hp, setCancelFlag, eraseKey_of_lookup_none t p h]
  refine ⟨he, ?_⟩
  rw [he]
  simp [checkCancelFlag, List.lookup]

/-- Concrete instance of the amended C2 theorem. -/
theorem cancel_without_entry_inserts_w :
    nativeCancel ([((2:Int), false)] : CancelTable) 1
      = [((1:Int), true), ((2:Int), false)] ∧
    checkCancelFlag (nativeCancel [((2:Int), false)] 1) 1 = true :=
  cancel_without_entry_inserts [((2:Int), false)] 1 (by decide) (by decide)
